import Mathlib

/-
Verification of the Scout test/model lifecycle and decision-linking engine.

The backend service (Test Registry, Recommendation Service, Feedback Service,
Context Store) is embedded as pure state-passing functions; the frontend
dashboard logic (ModelList, ModelCard) and the two reverse-proxy routing
layers (the development proxy and the nginx configuration) are embedded as
pure functions on their inputs.
-/

namespace Scout

/-- A context is a mapping of feature-name to value (spec section 3). -/
abbrev Context := List (String × String)

/-- Association list lookup keyed by decidable equality. -/
def alookup {α β : Type} [DecidableEq α] (k : α) : List (α × β) → Option β
  | [] => none
  | (k', v) :: rest => if k = k' then some v else alookup k rest

/-- Association list update: applies f to the value at the first occurrence of key k. -/
def aupdate {α β : Type} [DecidableEq α] (k : α) (f : β → β) : List (α × β) → List (α × β)
  | [] => []
  | (k', v) :: rest => if k = k' then (k', f v) :: rest else (k', v) :: aupdate k f rest

/-- Modelled from the spec: the Decision Strategy contract of section 4.2.
The strategy is a pluggable black box: propose picks a variant-id from its
opaque internal state and an optional context; observe ingests a reward
observation and returns the new internal state. The backend source that
consumes this interface is not present in the repository snapshot. -/
structure Strategy (σ : Type) where
  propose : σ → Option Context → Nat
  observe : σ → Nat → Rat → Option Context → σ

/-- Modelled from the spec: per-variant activity counters of a Test
(section 3: prediction_count, update_count, reward_sum per variant). -/
structure VariantStats where
  prediction_count : Nat
  update_count : Nat
  reward_sum : Rat
deriving DecidableEq

/-- Modelled from the spec: the Test (aka Model) record of section 3. The
backend source owning this record is not present in the repository snapshot. -/
structure Test (σ : Type) where
  name : String
  variants : List (Nat × String)
  created_at : Nat
  last_prediction_at : Option Nat
  last_update_at : Option Nat
  stats : List (Nat × VariantStats)
  prediction_count : Nat
  update_count : Nat
  global_override : Option Nat
  is_active : Bool
  decision_model_state : σ
deriving DecidableEq

/-- Modelled from the spec: a Pending Context Entry (section 3), the
ephemeral link between a recommendation event and the context that
produced it, keyed in the Context Store by the correlation id. -/
structure PendingEntry where
  test_id : String
  variant_id : Nat
  context : Option Context
  created_at : Nat
deriving DecidableEq

/-- Modelled from the spec: the persisted system state, holding the Test
Registry (test_id to Test) and the Context Store (correlation_id to
pending entry), plus a counter used to generate fresh test ids. -/
structure SystemState (σ : Type) where
  registry : List (String × Test σ)
  contextStore : List (String × PendingEntry)
  nextId : Nat
deriving DecidableEq

/-- Modelled from the spec: the error taxonomy of section 7 that the
claims exercise. -/
inductive ApiError
  | TestNotFound
  | InvalidVariantSet
  | UnknownVariant
deriving DecidableEq

/-- Modelled from the spec: per-item failure reasons for feedback batches
(section 4.4 / 7). -/
inductive FailReason
  | UnknownVariant
deriving DecidableEq

/-- Result of a recommend call: chosen variant id, its label, and whether
the choice came from a global override (section 4.3). -/
structure RecResult where
  variant_id : Nat
  variant_label : String
  is_override : Bool
deriving DecidableEq

/-- One item of a feedback batch (section 4.4). -/
structure UpdateItem where
  correlation_id : Option String
  variant_id : Nat
  reward : Rat
  context : Option Context
  context_used_for_prediction : Bool
deriving DecidableEq

/-- Structured result of a feedback batch (section 4.4): processed count
and the per-item failures, each an index with a reason. -/
structure UpdateResult where
  processed_count : Nat
  failures : List (Nat × FailReason)
deriving DecidableEq

/-- Modelled from the spec: a variant set is valid when it is a non-empty
mapping with dense integer keys starting at 0 (section 4.1 create_test). -/
def validVariantSet (variants : List (Nat × String)) : Bool :=
  decide (variants.map Prod.fst = List.range variants.length) && !variants.isEmpty

/-- Zeroed per-variant counters for a fresh test. -/
def initStats (variants : List (Nat × String)) : List (Nat × VariantStats) :=
  variants.map (fun p => (p.1, ⟨0, 0, 0⟩))

/-- Fresh test id generated from the id counter. -/
def freshTestId (n : Nat) : String := "test-" ++ toString n

/-- Modelled from the spec: create_test (section 4.1). Fails with
InvalidVariantSet when the variant mapping is empty or malformed,
detected before any mutation; otherwise persists a new Test record with
zeroed counters and is_active true. -/
def create_test {σ : Type} (now : Nat) (init : σ) (name : String)
    (variants : List (Nat × String)) (st : SystemState σ) :
    Except ApiError String × SystemState σ :=
  if validVariantSet variants then
    let id := freshTestId st.nextId
    (Except.ok id,
      { st with
        nextId := st.nextId + 1
        registry := (id, { name := name, variants := variants, created_at := now,
                           last_prediction_at := none, last_update_at := none,
                           stats := initStats variants,
                           prediction_count := 0, update_count := 0,
                           global_override := none, is_active := true,
                           decision_model_state := init }) :: st.registry })
  else
    (Except.error ApiError.InvalidVariantSet, st)

/-- Modelled from the spec: get_test (section 4.1); soft-deleted tests are
treated as not found on the read paths that matter to recommendation and
feedback. -/
def get_test {σ : Type} (st : SystemState σ) (id : String) : Option (Test σ) :=
  match alookup id st.registry with
  | some t => if t.is_active then some t else none
  | none => none

/-- Modelled from the spec: delete_test (section 4.1): removes the registry
entry and any Context Store entries tied to the test; idempotent, a
nonexistent test id is a no-op success. -/
def delete_test {σ : Type} (id : String) (st : SystemState σ) :
    Except ApiError Unit × SystemState σ :=
  (Except.ok (),
    { st with
      registry := st.registry.filter (fun p => p.1 ≠ id)
      contextStore := st.contextStore.filter (fun p => p.2.test_id ≠ id) })

/-- Bump the per-variant prediction counter. -/
def bumpPred (s : VariantStats) : VariantStats :=
  { s with prediction_count := s.prediction_count + 1 }

/-- Bump the per-variant update counter and reward accumulator. -/
def bumpUpd (reward : Rat) (s : VariantStats) : VariantStats :=
  { s with update_count := s.update_count + 1, reward_sum := s.reward_sum + reward }

/-- Modelled from the spec: record_prediction on a single Test record
(section 4.1): atomically increments the global and per-variant
prediction counters and the last-prediction timestamp. -/
def recordPrediction {σ : Type} (now : Nat) (vid : Nat) (t : Test σ) : Test σ :=
  { t with
    prediction_count := t.prediction_count + 1
    last_prediction_at := some now
    stats := aupdate vid bumpPred t.stats }

/-- Modelled from the spec: store a pending context entry when a
correlation id is supplied (section 4.3); reuse of a correlation id
before expiry silently overwrites the prior entry (section 9). -/
def storePending {σ : Type} (now : Nat) (id : String) (vid : Nat)
    (ctx : Option Context) (corr : Option String) (st : SystemState σ) : SystemState σ :=
  match corr with
  | none => st
  | some c =>
      { st with contextStore :=
          (c, { test_id := id, variant_id := vid, context := ctx, created_at := now }) ::
            st.contextStore.filter (fun p => p.1 ≠ c) }

/-- Label of a variant id inside a test. -/
def labelOf {σ : Type} (t : Test σ) (vid : Nat) : String :=
  (alookup vid t.variants).getD ""

/-- Modelled from the spec: the Recommendation Service recommend operation
(section 4.3). Loads the test (TestNotFound when absent or inactive, with
no side effect), short-circuits to the override variant when
global_override is set, otherwise asks the Decision Strategy; in both
cases records the prediction and stores the pending context entry when a
correlation id is supplied. -/
def recommend {σ : Type} (strat : Strategy σ) (now : Nat) (id : String)
    (ctx : Option Context) (corr : Option String) (st : SystemState σ) :
    Except ApiError RecResult × SystemState σ :=
  match get_test st id with
  | none => (Except.error ApiError.TestNotFound, st)
  | some t =>
      match t.global_override with
      | some v =>
          (Except.ok ⟨v, labelOf t v, true⟩,
            storePending now id v ctx corr
              { st with registry := aupdate id (recordPrediction now v) st.registry })
      | none =>
          let v := strat.propose t.decision_model_state ctx
          (Except.ok ⟨v, labelOf t v, false⟩,
            storePending now id v ctx corr
              { st with registry := aupdate id (recordPrediction now v) st.registry })

/-- Modelled from the spec: context resolution for one feedback item
(section 4.4 step 2). When context_used_for_prediction is true and a
correlation id is given, the Context Store entry is consumed one-shot:
its context is used and the entry deleted; when no entry is found the
item falls back to its inline context, or null when none. -/
def resolveContext (item : UpdateItem) (store : List (String × PendingEntry)) :
    Option Context × List (String × PendingEntry) :=
  if item.context_used_for_prediction then
    match item.correlation_id with
    | some c =>
        match alookup c store with
        | some e => (e.context, store.filter (fun p => p.1 ≠ c))
        | none => (item.context, store)
    | none => (item.context, store)
  else
    (item.context, store)

/-- Modelled from the spec: apply one validated feedback item to the Test
record (section 4.4 steps 3 and 4): feed the observation to the Decision
Strategy and atomically bump the update counters, reward accumulator and
timestamp. -/
def applyObservation {σ : Type} (strat : Strategy σ) (now : Nat) (item : UpdateItem)
    (rctx : Option Context) (t : Test σ) : Test σ :=
  { t with
    decision_model_state := strat.observe t.decision_model_state item.variant_id item.reward rctx
    update_count := t.update_count + 1
    last_update_at := some now
    stats := aupdate item.variant_id (bumpUpd item.reward) t.stats }

/-- Modelled from the spec: the per-item loop of the Feedback Service
(section 4.4), processed in array order; an item naming a variant id
outside the variant set is recorded as a per-item failure with reason
UnknownVariant at its 0-based index and the batch continues. Returns the
final Test record, the remaining Context Store, the processed count and
the failure list. -/
def processItems {σ : Type} (strat : Strategy σ) (now : Nat) :
    List UpdateItem → Nat → Test σ → List (String × PendingEntry) →
    Test σ × List (String × PendingEntry) × Nat × List (Nat × FailReason)
  | [], _, t, store => (t, store, 0, [])
  | item :: rest, idx, t, store =>
      if (alookup item.variant_id t.variants).isSome then
        let r := resolveContext item store
        let out := processItems strat now rest (idx + 1) (applyObservation strat now item r.1 t) r.2
        (out.1, out.2.1, out.2.2.1 + 1, out.2.2.2)
      else
        let out := processItems strat now rest (idx + 1) t store
        (out.1, out.2.1, out.2.2.1, (idx, FailReason.UnknownVariant) :: out.2.2.2)

/-- Modelled from the spec: the Feedback Service update operation
(section 4.4): loads the test, processes the batch with per-item failure
tolerance, and writes back the final Test record and Context Store. -/
def update {σ : Type} (strat : Strategy σ) (now : Nat) (id : String)
    (items : List UpdateItem) (st : SystemState σ) :
    Except ApiError UpdateResult × SystemState σ :=
  match get_test st id with
  | none => (Except.error ApiError.TestNotFound, st)
  | some t =>
      let out := processItems strat now items 0 t st.contextStore
      (Except.ok ⟨out.2.2.1, out.2.2.2⟩,
        { st with
          contextStore := out.2.1
          registry := aupdate id (fun _ => out.1) st.registry })

/-- Modelled from the spec: set_override (section 4.1); fails with
UnknownVariant when the variant id is not in the variant set, detected
before any mutation. -/
def set_override {σ : Type} (id : String) (vid : Nat) (st : SystemState σ) :
    Except ApiError Unit × SystemState σ :=
  match get_test st id with
  | none => (Except.error ApiError.TestNotFound, st)
  | some t =>
      if (alookup vid t.variants).isSome then
        (Except.ok (),
          { st with registry := aupdate id (fun u => { u with global_override := some vid }) st.registry })
      else
        (Except.error ApiError.UnknownVariant, st)

/-- Modelled from the spec: clear_override (section 4.1). -/
def clear_override {σ : Type} (id : String) (st : SystemState σ) :
    Except ApiError Unit × SystemState σ :=
  match get_test st id with
  | none => (Except.error ApiError.TestNotFound, st)
  | some _ =>
      (Except.ok (),
        { st with registry := aupdate id (fun u => { u with global_override := none }) st.registry })

/-- Whether a feedback item names a variant id inside the variant set of
the test (the per-item validation of section 4.4 step 1). -/
def validItem {σ : Type} (t : Test σ) (item : UpdateItem) : Bool :=
  (alookup item.variant_id t.variants).isSome

/-- The variant a recommend call chooses for a loaded test: the override
variant when global_override is set, otherwise the Decision Strategy
proposal (section 4.3). -/
def chosenVariant {σ : Type} (strat : Strategy σ) (t : Test σ) (ctx : Option Context) : Nat :=
  match t.global_override with
  | some v => v
  | none => strat.propose t.decision_model_state ctx

/-- One recommend request of a concurrent workload. -/
structure RecReq where
  now : Nat
  test_id : String
  ctx : Option Context
  corr : Option String
deriving DecidableEq

/-- Modelled from the spec: N concurrent recommend calls. Section 5
requires all Test Registry mutations for one test id to be serialized
(per-test mutual exclusion), so any concurrent execution is equivalent to
some sequential interleaving; the list order is that interleaving. -/
def runRecommends {σ : Type} (strat : Strategy σ) (reqs : List RecReq)
    (st : SystemState σ) : SystemState σ :=
  reqs.foldl (fun s r => (recommend strat r.now r.test_id r.ctx r.corr s).2) st

/-- Sum of the per-variant prediction counters. -/
def statsPredSum (l : List (Nat × VariantStats)) : Nat :=
  (l.map (fun p => p.2.prediction_count)).sum

/-- Modelled from the spec: the Decision Strategy contract of section 4.2:
propose must return a variant-id that is a member of the variant set. -/
def StrategyValid {σ : Type} (strat : Strategy σ) (variants : List (Nat × String)) : Prop :=
  ∀ s ctx, (alookup (strat.propose s ctx) variants).isSome = true

/-- Well-formedness of one Test record: the per-variant prediction
counters sum to the total, the stats keys are the variant keys, any
override names a member variant, and the strategy proposal contract
holds for its variant set. -/
def TestWF {σ : Type} (strat : Strategy σ) (t : Test σ) : Prop :=
  statsPredSum t.stats = t.prediction_count ∧
  t.stats.map Prod.fst = t.variants.map Prod.fst ∧
  (∀ v, t.global_override = some v → (alookup v t.variants).isSome = true) ∧
  StrategyValid strat t.variants

/-- Well-formedness of the registry: every reachable Test record is
well-formed. -/
def StateWF {σ : Type} (strat : Strategy σ) (st : SystemState σ) : Prop :=
  ∀ id t, alookup id st.registry = some t → TestWF strat t

namespace Frontend

/-- A Test summary row as the ModelList dashboard consumes it: the fields
the fetchModels sort comparator reads (active flag and creation time),
plus the id. -/
structure ModelSummary where
  model_id : String
  active : Bool
  created_at : Nat
deriving DecidableEq

/-- The fetchModels sort comparator of ModelList, phrased as the relation
"a sorts at or before b": the JavaScript comparator returns a negative or
zero number for (a, b) exactly when the active flags are equal and b was
created no later than a, or when a is active and b is not. -/
def modelOrder (a b : ModelSummary) : Bool :=
  if a.active = b.active then decide (b.created_at ≤ a.created_at) else a.active

/-- The comparator as a proposition, for use with the sorting lemmas. -/
def modelBefore (a b : ModelSummary) : Prop := modelOrder a b = true

instance : DecidableRel modelBefore := fun a b => instDecidableEqBool (modelOrder a b) true

instance : IsTotal ModelSummary modelBefore where
  total := by
    intro a b
    simp only [modelBefore, modelOrder]
    by_cases h : a.active = b.active
    · rw [if_pos h, if_pos h.symm]
      rcases Nat.le_total b.created_at a.created_at with hle | hle
      · exact Or.inl (by simpa using hle)
      · exact Or.inr (by simpa using hle)
    · rw [if_neg h, if_neg (Ne.symm h)]
      cases ha : a.active
      · cases hb : b.active
        · exact absurd (ha.trans hb.symm) h
        · exact Or.inr rfl
      · exact Or.inl rfl

instance : IsTrans ModelSummary modelBefore where
  trans := by
    intro a b c hab hbc
    simp only [modelBefore, modelOrder] at *
    cases ha : a.active <;> cases hb : b.active <;> cases hc : c.active <;>
      simp [ha, hb, hc] at * <;> omega

/-- The list ordering fetchModels applies to the response of /api/models.
Array.prototype.sort is a stable sort consistent with the comparator, and
a stable sort for a total preorder has a unique output, here given by
insertion sort. -/
def fetchModelsSort (l : List ModelSummary) : List ModelSummary :=
  List.insertionSort modelBefore l

/-- Whether a summary list is in creation-time-descending order
(newest first), the order the spec recommends for list_tests. -/
def sortedByCreatedDescB : List ModelSummary → Bool
  | [] => true
  | [_] => true
  | a :: b :: rest => decide (b.created_at ≤ a.created_at) && sortedByCreatedDescB (b :: rest)

/-- A variant label as posted by the create-test form: the string the user
typed, or the numeric index fallback. -/
inductive VariantLabel
  | str (s : String)
  | num (n : Nat)
deriving DecidableEq

/-- The label handleSubmit stores for slot i: variantLabels[i] || i, so an
empty or missing label falls back to the integer index itself. -/
def jsFallbackLabel (labels : List String) (i : Nat) : VariantLabel :=
  match labels.get? i with
  | some s => if s = "" then VariantLabel.num i else VariantLabel.str s
  | none => VariantLabel.num i

/-- The variants dictionary handleSubmit posts to /api/create_model: keys
0 to variants-1, each value the typed label or the index fallback. -/
def buildVariantDict (n : Nat) (labels : List String) : List (Nat × VariantLabel) :=
  (List.range n).map (fun i => (i, jsFallbackLabel labels i))

/-- The variant-count onChange handler of the create form: parseInt of the
field (none models NaN), clamped so any non-positive entry becomes 1. -/
def clampVariantCount : Option Int → Int
  | some num => if num > 0 then num else 1
  | none => 1

/-- A request the ModelCard override dropdown posts to the backend. -/
inductive OverridePost
  | rollout (model_id : String) (variant : String)
  | clear (model_id : String)
deriving DecidableEq

/-- The eventKeys the ModelCard override dropdown can deliver: one item
per variant carrying the display label as its eventKey, plus the Remove
override item shown only while an override is rolled out. -/
def dropdownKeys (variants : List (Nat × String)) (rolled_out : Bool) : List String :=
  variants.map Prod.snd ++ (if rolled_out then ["Remove override"] else [])

/-- The handleVariantSelect handler of ModelCard: given the current
selectedVariant label and the chosen eventKey, returns the request posted
and the new selectedVariant label. Remove override posts to
clear_global_variant with an empty body and leaves the selection alone;
any other key posts it as the body variant field of
rollout_global_variant and records it as the selection. -/
def handleVariantSelect (model_id selected eventKey : String) : OverridePost × String :=
  if eventKey = "Remove override" then
    (OverridePost.clear model_id, selected)
  else
    (OverridePost.rollout model_id eventKey, eventKey)

end Frontend

namespace Proxy

/-- A request path, as a character list. -/
abbrev Path := List Char

/-- Strip pre from the front of p, returning the remainder when pre is a
leading part of p. -/
def stripPre : Path → Path → Option Path
  | [], p => some p
  | a :: pre, p =>
      match p with
      | [] => none
      | b :: p' => if a = b then stripPre pre p' else none

/-- The /api mount point both routing layers match on. -/
def apiRoot : Path := ['/', 'a', 'p', 'i']

/-- An Express mount: app.use with path /api fires only at a
path-segment boundary, for the path /api itself or a path continuing
with a slash, never for a bare string extension such as /apifoo.
Returns the part of the path after /api when the mount fires. -/
def expressApiMount (p : Path) : Option Path :=
  match stripPre apiRoot p with
  | some [] => some []
  | some (c :: rest) => if c = '/' then some (c :: rest) else none
  | none => none

/-- The first setupProxy variant: the middleware mounted at /api with
pathRewrite removing the leading /api, so a handled request is
forwarded to the backend with the /api part stripped; none means the
mount does not fire for this path. -/
def devProxyRewriteForward (p : Path) : Option Path :=
  match expressApiMount p with
  | some rest => some rest
  | none => none

/-- The second setupProxy variant: the middleware mounted at /api with
no pathRewrite, forwarding the original path unchanged when the mount
fires. -/
def devProxyPreservingForward (p : Path) : Option Path :=
  match expressApiMount p with
  | some _ => some p
  | none => none

/-- The nginx location /api block: a plain string-prefix location whose
proxy_pass http backend_servers/api replaces the matched /api part with
the /api of the proxy_pass URI, so the backend receives the path
unchanged. -/
def nginxApiForward (p : Path) : Option Path :=
  match stripPre apiRoot p with
  | some rest => some (apiRoot ++ rest)
  | none => none

end Proxy

namespace Ex

/-- A trivial concrete strategy used to instantiate witnesses. -/
def strat0 : Strategy Unit := ⟨fun _ _ => 0, fun s _ _ _ => s⟩

/-- A concrete two-variant set. -/
def variants2 : List (Nat × String) := [(0, "Red"), (1, "Blue")]

/-- A concrete test with a global override on variant 1. -/
def testOv : Test Unit :=
  { name := "X", variants := variants2, created_at := 0,
    last_prediction_at := none, last_update_at := none,
    stats := initStats variants2, prediction_count := 0, update_count := 0,
    global_override := some 1, is_active := true, decision_model_state := () }

/-- A concrete state holding the overridden test. -/
def stOv : SystemState Unit := ⟨[("t1", testOv)], [], 1⟩

/-- Two concurrent recommend requests against the same test. -/
def reqs2 : List RecReq := [⟨1, "t1", none, none⟩, ⟨2, "t1", none, none⟩]

/-- A concrete pending context entry for correlation id r1. -/
def entC3 : PendingEntry := ⟨"t1", 1, some [("device", "mobile")], 3⟩

/-- A concrete state holding the test and the pending entry. -/
def stC3 : SystemState Unit := ⟨[("t1", testOv)], [("r1", entC3)], 1⟩

/-- A feedback item that links by correlation id r1. -/
def itemC3 : UpdateItem := ⟨some "r1", 1, 1, some [("device", "desktop")], true⟩

/-- Three feedback items, the second naming unknown variant-id 5. -/
def itemA : UpdateItem := ⟨none, 0, 1, none, false⟩

def itemB : UpdateItem := ⟨none, 5, 1, none, false⟩

def itemC : UpdateItem := ⟨none, 1, 2, none, false⟩

/-- Concrete model summaries for the dashboard ordering: an inactive test
created later than an active one. -/
def cm1 : Frontend.ModelSummary := ⟨"m1", false, 10⟩

def cm2 : Frontend.ModelSummary := ⟨"m2", true, 5⟩

end Ex

theorem alookup_aupdate_self {α β : Type} [DecidableEq α] (k : α) (f : β → β)
    (l : List (α × β)) : alookup k (aupdate k f l) = (alookup k l).map f := by
  induction l with
  | nil => rfl
  | cons p rest ih =>
      obtain ⟨a, v⟩ := p
      by_cases h : k = a
      · simp [aupdate, alookup, h]
      · simp [aupdate, alookup, h, ih]

theorem alookup_aupdate_ne {α β : Type} [DecidableEq α] {k k' : α} (h : k ≠ k')
    (f : β → β) (l : List (α × β)) : alookup k' (aupdate k f l) = alookup k' l := by
  induction l with
  | nil => rfl
  | cons p rest ih =>
      obtain ⟨a, v⟩ := p
      by_cases hk : k = a
      · subst hk
        simp [aupdate, alookup, Ne.symm h]
      · by_cases hk' : k' = a
        · simp [aupdate, alookup, hk, hk']
        · simp [aupdate, alookup, hk, hk', ih]

theorem keys_aupdate {α β : Type} [DecidableEq α] (k : α) (f : β → β)
    (l : List (α × β)) : (aupdate k f l).map Prod.fst = l.map Prod.fst := by
  induction l with
  | nil => rfl
  | cons p rest ih =>
      obtain ⟨a, v⟩ := p
      by_cases h : k = a <;> simp [aupdate, h, ih]

theorem alookup_isSome_iff {α β : Type} [DecidableEq α] (k : α) (l : List (α × β)) :
    (alookup k l).isSome = true ↔ k ∈ l.map Prod.fst := by
  induction l with
  | nil => simp [alookup]
  | cons p rest ih =>
      obtain ⟨a, v⟩ := p
      by_cases h : k = a <;> simp [alookup, h, ih]

theorem statsPredSum_aupdate_bumpPred {k : Nat} {l : List (Nat × VariantStats)}
    (h : (alookup k l).isSome = true) :
    statsPredSum (aupdate k bumpPred l) = statsPredSum l + 1 := by
  induction l with
  | nil => simp [alookup] at h
  | cons p rest ih =>
      obtain ⟨a, v⟩ := p
      by_cases hk : k = a
      · simp [aupdate, hk, statsPredSum, bumpPred]
        omega
      · simp only [alookup, if_neg hk] at h
        have := ih h
        simp only [aupdate, if_neg hk, statsPredSum, List.map_cons, List.sum_cons] at *
        omega

theorem alookup_filter_key_ne {α β : Type} [DecidableEq α] (c : α) (l : List (α × β)) :
    alookup c (l.filter (fun p => p.1 ≠ c)) = none := by
  induction l with
  | nil => rfl
  | cons p rest ih =>
      by_cases h : p.1 = c
      · simpa [List.filter_cons, h] using ih
      · simpa [List.filter_cons, h, alookup, Ne.symm h] using ih

theorem alookup_none_key_ne {α β : Type} [DecidableEq α] {k : α} {l : List (α × β)}
    (h : alookup k l = none) : ∀ p ∈ l, p.1 ≠ k := by
  induction l with
  | nil => intro p hp; cases hp
  | cons q rest ih =>
      obtain ⟨a, v⟩ := q
      intro p hp
      by_cases hk : k = a
      · simp [alookup, hk] at h
      · rcases List.mem_cons.mp hp with rfl | hp'
        · exact fun he => hk he.symm
        · simp only [alookup, if_neg hk] at h
          exact ih h p hp'

theorem filter_idem {α : Type} (q : α → Bool) (l : List α) :
    (l.filter q).filter q = l.filter q := by
  induction l with
  | nil => rfl
  | cons a rest ih =>
      by_cases h : q a <;> simp [List.filter_cons, h, ih]

theorem get_test_eq_some_iff {σ : Type} (st : SystemState σ) (id : String) (t : Test σ) :
    get_test st id = some t ↔ alookup id st.registry = some t ∧ t.is_active = true := by
  cases h : alookup id st.registry with
  | none => simp [get_test, h]
  | some u =>
      by_cases hu : u.is_active = true
      · simp only [get_test, h, if_pos hu]
        constructor
        · rintro h'; cases h'; exact ⟨rfl, hu⟩
        · rintro ⟨h', _⟩; cases h'; rfl
      · simp only [get_test, h, if_neg hu]
        constructor
        · intro h'; cases h'
        · rintro ⟨h', hact⟩; cases h'; exact absurd hact hu

theorem storePending_registry {σ : Type} (now : Nat) (id : String) (vid : Nat)
    (ctx : Option Context) (corr : Option String) (st : SystemState σ) :
    (storePending now id vid ctx corr st).registry = st.registry := by
  cases corr <;> rfl

theorem recordPrediction_is_active {σ : Type} (now v : Nat) (t : Test σ) :
    (recordPrediction now v t).is_active = t.is_active := rfl

theorem applyObservation_variants {σ : Type} (strat : Strategy σ) (now : Nat)
    (item : UpdateItem) (rctx : Option Context) (t : Test σ) :
    (applyObservation strat now item rctx t).variants = t.variants := rfl

theorem applyObservation_is_active {σ : Type} (strat : Strategy σ) (now : Nat)
    (item : UpdateItem) (rctx : Option Context) (t : Test σ) :
    (applyObservation strat now item rctx t).is_active = t.is_active := rfl

theorem recommend_found {σ : Type} (strat : Strategy σ) (now : Nat) (id : String)
    (ctx : Option Context) (corr : Option String) (st : SystemState σ) (t : Test σ)
    (ht : get_test st id = some t) :
    recommend strat now id ctx corr st =
      (Except.ok ⟨chosenVariant strat t ctx, labelOf t (chosenVariant strat t ctx),
          t.global_override.isSome⟩,
        storePending now id (chosenVariant strat t ctx) ctx corr
          { st with
            registry := aupdate id (recordPrediction now (chosenVariant strat t ctx)) st.registry }) := by
  cases hov : t.global_override with
  | some v => simp [recommend, ht, hov, chosenVariant]
  | none => simp [recommend, ht, hov, chosenVariant]

theorem chosenVariant_mem {σ : Type} {strat : Strategy σ} {t : Test σ}
    (hwf : TestWF strat t) (ctx : Option Context) :
    (alookup (chosenVariant strat t ctx) t.variants).isSome = true := by
  obtain ⟨-, -, h3, h4⟩ := hwf
  unfold chosenVariant
  cases hov : t.global_override with
  | some v => exact h3 v hov
  | none => exact h4 t.decision_model_state ctx

theorem testWF_recordPrediction {σ : Type} {strat : Strategy σ} {t : Test σ}
    (hwf : TestWF strat t) (now : Nat) {v : Nat}
    (hv : (alookup v t.variants).isSome = true) :
    TestWF strat (recordPrediction now v t) := by
  obtain ⟨h1, h2, h3, h4⟩ := hwf
  refine ⟨?_, ?_, h3, h4⟩
  · have hs : (alookup v t.stats).isSome = true := by
      rw [alookup_isSome_iff] at hv ⊢
      rw [h2]
      exact hv
    show statsPredSum (aupdate v bumpPred t.stats) = t.prediction_count + 1
    rw [statsPredSum_aupdate_bumpPred hs, h1]
  · show (aupdate v bumpPred t.stats).map Prod.fst = t.variants.map Prod.fst
    rw [keys_aupdate]
    exact h2

theorem recommend_step {σ : Type} (strat : Strategy σ) (now : Nat) (id : String)
    (ctx : Option Context) (corr : Option String) (st : SystemState σ) (t : Test σ)
    (hwf : StateWF strat st) (ht : get_test st id = some t) :
    StateWF strat (recommend strat now id ctx corr st).2 ∧
    get_test (recommend strat now id ctx corr st).2 id =
      some (recordPrediction now (chosenVariant strat t ctx) t) := by
  obtain ⟨hreg, hact⟩ := (get_test_eq_some_iff st id t).mp ht
  have htwf : TestWF strat t := hwf id t hreg
  have hv := chosenVariant_mem htwf ctx
  rw [recommend_found strat now id ctx corr st t ht]
  constructor
  · intro id' t' h'
    rw [storePending_registry] at h'
    by_cases hid : id' = id
    · subst hid
      rw [alookup_aupdate_self, hreg] at h'
      cases h'
      exact testWF_recordPrediction htwf now hv
    · rw [alookup_aupdate_ne (fun he => hid he.symm)] at h'
      exact hwf id' t' h'
  · rw [get_test_eq_some_iff]
    constructor
    · rw [storePending_registry, alookup_aupdate_self, hreg]
      rfl
    · rw [recordPrediction_is_active]
      exact hact

/-- C5: create_test called with an empty variants mapping fails with
InvalidVariantSet and persists no Test record: the returned registry
state is exactly the state before the call. -/
theorem create_test_empty_variants_rejected {σ : Type} (now : Nat) (init : σ)
    (name : String) (st : SystemState σ) :
    create_test now init name [] st = (Except.error ApiError.InvalidVariantSet, st) := by
  simp [create_test, validVariantSet]

/-- C6: delete_test is idempotent: it always returns success, deleting
twice leaves exactly the state of deleting once, and deleting a test id
that is absent from the registry (with no Context Store entries tied to
it, as after a prior delete) is a no-op. -/
theorem delete_test_idempotent {σ : Type} (id : String) (st : SystemState σ) :
    (delete_test id st).1 = Except.ok () ∧
    delete_test id (delete_test id st).2 = delete_test id st ∧
    (alookup id st.registry = none →
      (∀ p ∈ st.contextStore, p.2.test_id ≠ id) →
      (delete_test id st).2 = st) := by
  refine ⟨rfl, ?_, ?_⟩
  · simp only [delete_test]
    rw [filter_idem, filter_idem]
  · intro h1 h2
    simp only [delete_test]
    have hr : st.registry.filter (fun p => p.1 ≠ id) = st.registry :=
      List.filter_eq_self.mpr (fun p hp => by simpa using alookup_none_key_ne h1 p hp)
    have hcs : st.contextStore.filter (fun p => p.2.test_id ≠ id) = st.contextStore :=
      List.filter_eq_self.mpr (fun p hp => by simpa using h2 p hp)
    rw [hr, hcs]

/-- C1: on a test whose global_override is set, recommend returns the
override variant with is_override true regardless of what the Decision
Strategy would propose, still increments the total and per-variant
prediction counters, and still stores the pending context entry when a
correlation id is supplied. -/
theorem recommend_override_short_circuit {σ : Type} (strat : Strategy σ) (now : Nat)
    (id : String) (ctx : Option Context) (corr : Option String) (st : SystemState σ)
    (t : Test σ) (v : Nat) (ht : get_test st id = some t)
    (hov : t.global_override = some v) :
    (recommend strat now id ctx corr st).1 = Except.ok ⟨v, labelOf t v, true⟩ ∧
    (∃ t', get_test (recommend strat now id ctx corr st).2 id = some t' ∧
      t'.prediction_count = t.prediction_count + 1 ∧
      alookup v t'.stats = (alookup v t.stats).map bumpPred) ∧
    (∀ c, corr = some c →
      alookup c (recommend strat now id ctx corr st).2.contextStore =
        some ⟨id, v, ctx, now⟩) := by
  have hch : chosenVariant strat t ctx = v := by simp [chosenVariant, hov]
  obtain ⟨hreg, hact⟩ := (get_test_eq_some_iff st id t).mp ht
  rw [recommend_found strat now id ctx corr st t ht, hch]
  refine ⟨by simp [hov], ?_, ?_⟩
  · refine ⟨recordPrediction now v t, ?_, rfl, ?_⟩
    · rw [get_test_eq_some_iff]
      refine ⟨?_, by rw [recordPrediction_is_active]; exact hact⟩
      rw [storePending_registry, alookup_aupdate_self, hreg]
      rfl
    · exact alookup_aupdate_self v bumpPred t.stats
  · intro c hc
    subst hc
    simp [storePending, alookup]

theorem runRecommends_wf {σ : Type} (strat : Strategy σ) (id : String) :
    ∀ (reqs : List RecReq) (st : SystemState σ) (t : Test σ),
      StateWF strat st → (∀ r ∈ reqs, r.test_id = id) → get_test st id = some t →
      StateWF strat (runRecommends strat reqs st) ∧
      ∃ t', get_test (runRecommends strat reqs st) id = some t' ∧
        t'.prediction_count = t.prediction_count + reqs.length := by
  intro reqs
  induction reqs with
  | nil =>
      intro st t hwf hall ht
      exact ⟨hwf, t, ht, by simp [runRecommends]⟩
  | cons r rest ih =>
      intro st t hwf hall ht
      have hr : r.test_id = id := hall r (List.mem_cons_self r rest)
      have hrun : runRecommends strat (r :: rest) st =
          runRecommends strat rest (recommend strat r.now r.test_id r.ctx r.corr st).2 := rfl
      rw [hrun, hr]
      obtain ⟨hwf', hget'⟩ := recommend_step strat r.now id r.ctx r.corr st t hwf ht
      obtain ⟨hwfF, t', hgetF, hcnt⟩ :=
        ih _ _ hwf' (fun x hx => hall x (List.mem_cons_of_mem r hx)) hget'
      refine ⟨hwfF, t', hgetF, ?_⟩
      rw [hcnt]
      simp only [recordPrediction, List.length_cons]
      omega

/-- C2: the sum of the per-variant prediction counters equals the total
prediction counter, preserved across any serialized interleaving of N
concurrent recommend calls against the same test (section 5 requires
per-test serialization), and every one of the N record_prediction
increments is reflected in the final count: no lost updates. -/
theorem recommend_concurrent_no_lost_updates {σ : Type} (strat : Strategy σ)
    (reqs : List RecReq) (id : String) (st : SystemState σ) (t : Test σ)
    (hwf : StateWF strat st) (hall : ∀ r ∈ reqs, r.test_id = id)
    (ht : get_test st id = some t) :
    StateWF strat (runRecommends strat reqs st) ∧
    ∃ t', get_test (runRecommends strat reqs st) id = some t' ∧
      t'.prediction_count = t.prediction_count + reqs.length ∧
      statsPredSum t'.stats = t'.prediction_count := by
  obtain ⟨hwfF, t', hgetF, hcnt⟩ := runRecommends_wf strat id reqs st t hwf hall ht
  refine ⟨hwfF, t', hgetF, hcnt, ?_⟩
  obtain ⟨hregF, -⟩ := (get_test_eq_some_iff _ id t').mp hgetF
  exact (hwfF id t' hregF).1

theorem update_single {σ : Type} (strat : Strategy σ) (now : Nat) (id : String)
    (item : UpdateItem) (st : SystemState σ) (t : Test σ)
    (ht : get_test st id = some t)
    (hv : (alookup item.variant_id t.variants).isSome = true) :
    update strat now id [item] st =
      (Except.ok ⟨1, []⟩,
        { st with
          contextStore := (resolveContext item st.contextStore).2
          registry := aupdate id
            (fun _ => applyObservation strat now item (resolveContext item st.contextStore).1 t)
            st.registry }) := by
  simp [update, ht, processItems, hv]

/-- C3: a correlation id consumed once by update with
context_used_for_prediction true has its Context Store entry deleted on
that first consumption, with the Decision Strategy observing exactly the
stored context; a second submission with the same correlation id and
context_used_for_prediction true still succeeds and falls back to the
inline context of the item (or null when none), never reusing the
deleted entry. -/
theorem update_one_shot_context_consumption {σ : Type} (strat : Strategy σ)
    (now now2 : Nat) (id c : String) (st : SystemState σ) (t : Test σ)
    (item : UpdateItem) (e : PendingEntry)
    (ht : get_test st id = some t)
    (hv : (alookup item.variant_id t.variants).isSome = true)
    (hcorr : item.correlation_id = some c)
    (hused : item.context_used_for_prediction = true)
    (hstore : alookup c st.contextStore = some e) :
    (update strat now id [item] st).1 = Except.ok ⟨1, []⟩ ∧
    alookup c (update strat now id [item] st).2.contextStore = none ∧
    get_test (update strat now id [item] st).2 id =
      some (applyObservation strat now item e.context t) ∧
    (update strat now2 id [item] (update strat now id [item] st).2).1 =
      Except.ok ⟨1, []⟩ ∧
    get_test (update strat now2 id [item] (update strat now id [item] st).2).2 id =
      some (applyObservation strat now2 item item.context
        (applyObservation strat now item e.context t)) := by
  obtain ⟨hreg, hact⟩ := (get_test_eq_some_iff st id t).mp ht
  have hres1 : resolveContext item st.contextStore =
      (e.context, st.contextStore.filter (fun p => p.1 ≠ c)) := by
    simp [resolveContext, hused, hcorr, hstore]
  have h1 := update_single strat now id item st t ht hv
  rw [hres1] at h1
  have hget1 : get_test (update strat now id [item] st).2 id =
      some (applyObservation strat now item e.context t) := by
    rw [h1, get_test_eq_some_iff]
    constructor
    · show alookup id (aupdate id _ st.registry) = _
      rw [alookup_aupdate_self, hreg]
      rfl
    · rw [applyObservation_is_active]
      exact hact
  have hstore1 : alookup c (update strat now id [item] st).2.contextStore = none := by
    rw [h1]
    exact alookup_filter_key_ne c st.contextStore
  have hv1 : (alookup item.variant_id
      (applyObservation strat now item e.context t).variants).isSome = true := hv
  have h2 := update_single strat now2 id item (update strat now id [item] st).2
    (applyObservation strat now item e.context t) hget1 hv1
  have hres2 : resolveContext item (update strat now id [item] st).2.contextStore =
      (item.context, (update strat now id [item] st).2.contextStore) := by
    simp [resolveContext, hused, hcorr, hstore1]
  rw [hres2] at h2
  refine ⟨by rw [h1], hstore1, hget1, by rw [h2], ?_⟩
  rw [h2, get_test_eq_some_iff]
  constructor
  · show alookup id (aupdate id _ (update strat now id [item] st).2.registry) = _
    rw [alookup_aupdate_self]
    rw [h1]
    show (alookup id (aupdate id _ st.registry)).map _ = _
    rw [alookup_aupdate_self, hreg]
    rfl
  · rw [applyObservation_is_active, applyObservation_is_active]
    exact hact

theorem validItem_applyObservation {σ : Type} (strat : Strategy σ) (now : Nat)
    (item : UpdateItem) (rctx : Option Context) (t : Test σ) :
    validItem (applyObservation strat now item rctx t) = validItem t := rfl

theorem processItems_cons_valid {σ : Type} (strat : Strategy σ) (now : Nat)
    (item : UpdateItem) (rest : List UpdateItem) (idx : Nat) (t : Test σ)
    (store : List (String × PendingEntry))
    (hcond : (alookup item.variant_id t.variants).isSome = true) :
    processItems strat now (item :: rest) idx t store =
      ((processItems strat now rest (idx + 1)
          (applyObservation strat now item (resolveContext item store).1 t)
          (resolveContext item store).2).1,
        (processItems strat now rest (idx + 1)
          (applyObservation strat now item (resolveContext item store).1 t)
          (resolveContext item store).2).2.1,
        (processItems strat now rest (idx + 1)
          (applyObservation strat now item (resolveContext item store).1 t)
          (resolveContext item store).2).2.2.1 + 1,
        (processItems strat now rest (idx + 1)
          (applyObservation strat now item (resolveContext item store).1 t)
          (resolveContext item store).2).2.2.2) := by
  simp [processItems, hcond]

theorem processItems_cons_invalid {σ : Type} (strat : Strategy σ) (now : Nat)
    (item : UpdateItem) (rest : List UpdateItem) (idx : Nat) (t : Test σ)
    (store : List (String × PendingEntry))
    (hcond : (alookup item.variant_id t.variants).isSome = false) :
    processItems strat now (item :: rest) idx t store =
      ((processItems strat now rest (idx + 1) t store).1,
        (processItems strat now rest (idx + 1) t store).2.1,
        (processItems strat now rest (idx + 1) t store).2.2.1,
        (idx, FailReason.UnknownVariant) ::
          (processItems strat now rest (idx + 1) t store).2.2.2) := by
  simp [processItems, hcond]

theorem processItems_idx_indep {σ : Type} (strat : Strategy σ) (now : Nat) :
    ∀ (items : List UpdateItem) (t : Test σ) (store : List (String × PendingEntry))
      (idx idx' : Nat),
      (processItems strat now items idx t store).1 =
        (processItems strat now items idx' t store).1 ∧
      (processItems strat now items idx t store).2.1 =
        (processItems strat now items idx' t store).2.1 ∧
      (processItems strat now items idx t store).2.2.1 =
        (processItems strat now items idx' t store).2.2.1 := by
  intro items
  induction items with
  | nil => intro t store idx idx'; exact ⟨rfl, rfl, rfl⟩
  | cons item rest ih =>
      intro t store idx idx'
      cases hv : validItem t item with
      | true =>
          obtain ⟨ih1, ih2, ih3⟩ :=
            ih (applyObservation strat now item (resolveContext item store).1 t)
              (resolveContext item store).2 (idx + 1) (idx' + 1)
          rw [processItems_cons_valid strat now item rest idx t store hv,
              processItems_cons_valid strat now item rest idx' t store hv]
          exact ⟨ih1, ih2, congrArg (· + 1) ih3⟩
      | false =>
          obtain ⟨ih1, ih2, ih3⟩ := ih t store (idx + 1) (idx' + 1)
          rw [processItems_cons_invalid strat now item rest idx t store hv,
              processItems_cons_invalid strat now item rest idx' t store hv]
          exact ⟨ih1, ih2, ih3⟩

theorem processItems_general {σ : Type} (strat : Strategy σ) (now : Nat) :
    ∀ (items : List UpdateItem) (t : Test σ) (store : List (String × PendingEntry)) (idx : Nat),
      (processItems strat now items idx t store).1 =
        (processItems strat now (items.filter (validItem t)) idx t store).1 ∧
      (processItems strat now items idx t store).2.1 =
        (processItems strat now (items.filter (validItem t)) idx t store).2.1 ∧
      (processItems strat now items idx t store).2.2.1 =
        (items.filter (validItem t)).length ∧
      (processItems strat now items idx t store).2.2.2 =
        (items.enumFrom idx).filterMap
          (fun p => if validItem t p.2 = true then none
            else some (p.1, FailReason.UnknownVariant)) := by
  intro items
  induction items with
  | nil => intro t store idx; exact ⟨rfl, rfl, rfl, rfl⟩
  | cons item rest ih =>
      intro t store idx
      cases hv : validItem t item with
      | true =>
          obtain ⟨ih1, ih2, ih3, ih4⟩ :=
            ih (applyObservation strat now item (resolveContext item store).1 t)
              (resolveContext item store).2 (idx + 1)
          rw [validItem_applyObservation] at ih1 ih2 ih3 ih4
          rw [List.filter_cons_of_pos hv,
              processItems_cons_valid strat now item rest idx t store hv,
              processItems_cons_valid strat now item (rest.filter (validItem t)) idx t store hv]
          refine ⟨ih1, ih2, ?_, ?_⟩
          · exact congrArg (· + 1) ih3
          · rw [show ((item :: rest).enumFrom idx) =
                (idx, item) :: rest.enumFrom (idx + 1) from rfl]
            rw [List.filterMap_cons]
            simp only [hv, if_pos]
            exact ih4
      | false =>
          obtain ⟨ih1, ih2, ih3, ih4⟩ := ih t store (idx + 1)
          obtain ⟨j1, j2, -⟩ :=
            processItems_idx_indep strat now (rest.filter (validItem t)) t store (idx + 1) idx
          have hvne : ¬ validItem t item = true := by simp [hv]
          rw [List.filter_cons_of_neg hvne,
              processItems_cons_invalid strat now item rest idx t store hv]
          refine ⟨ih1.trans j1, ih2.trans j2, ih3, ?_⟩
          rw [show ((item :: rest).enumFrom idx) =
              (idx, item) :: rest.enumFrom (idx + 1) from rfl]
          rw [List.filterMap_cons]
          simp only [hv]
          rw [if_neg (by simp)]
          exact congrArg (List.cons (idx, FailReason.UnknownVariant)) ih4

theorem processItems_update_count {σ : Type} (strat : Strategy σ) (now : Nat) :
    ∀ (items : List UpdateItem) (t : Test σ) (store : List (String × PendingEntry)) (idx : Nat),
      (∀ item ∈ items, validItem t item = true) →
      (processItems strat now items idx t store).1.update_count =
        t.update_count + items.length := by
  intro items
  induction items with
  | nil => intro t store idx _; simp [processItems]
  | cons item rest ih =>
      intro t store idx hall
      have hv : validItem t item = true := hall item (List.mem_cons_self item rest)
      rw [processItems_cons_valid strat now item rest idx t store hv]
      have hall' : ∀ x ∈ rest,
          validItem (applyObservation strat now item (resolveContext item store).1 t) x = true := by
        intro x hx
        rw [validItem_applyObservation]
        exact hall x (List.mem_cons_of_mem item hx)
      have hre := ih (applyObservation strat now item (resolveContext item store).1 t)
        (resolveContext item store).2 (idx + 1) hall'
      show (processItems strat now rest (idx + 1)
        (applyObservation strat now item (resolveContext item store).1 t)
        (resolveContext item store).2).1.update_count = _
      rw [hre]
      simp only [applyObservation, List.length_cons]
      omega

theorem processItems_is_active {σ : Type} (strat : Strategy σ) (now : Nat) :
    ∀ (items : List UpdateItem) (t : Test σ) (store : List (String × PendingEntry)) (idx : Nat),
      (processItems strat now items idx t store).1.is_active = t.is_active := by
  intro items
  induction items with
  | nil => intro t store idx; rfl
  | cons item rest ih =>
      intro t store idx
      cases hv : validItem t item with
      | true =>
          rw [processItems_cons_valid strat now item rest idx t store hv]
          show (processItems strat now rest (idx + 1)
            (applyObservation strat now item (resolveContext item store).1 t)
            (resolveContext item store).2).1.is_active = _
          rw [ih]
          exact applyObservation_is_active strat now item (resolveContext item store).1 t
      | false =>
          rw [processItems_cons_invalid strat now item rest idx t store hv]
          exact ih t store (idx + 1)

/-- C4: for every feedback batch, each item naming a variant id outside
the variant set is recorded as a per-item failure with reason
UnknownVariant at that item's 0-based index, the processed count is the
number of the remaining items, and those items are fully applied to the
strategy and the counters: the final Test record and Context Store are
exactly those of processing the valid items alone, with the update
counter raised once per valid item; in particular a 3-item batch whose
second item names an unknown variant id returns processed_count 2 with
the single failure entry at index 1 — one bad item never aborts the
batch. -/
theorem update_batch_partial_failure {σ : Type} (strat : Strategy σ) (now : Nat)
    (id : String) (st : SystemState σ) (t : Test σ) (items : List UpdateItem)
    (ht : get_test st id = some t) :
    (update strat now id items st).1 =
      Except.ok ⟨(items.filter (validItem t)).length,
        (items.enumFrom 0).filterMap
          (fun p => if validItem t p.2 = true then none
            else some (p.1, FailReason.UnknownVariant))⟩ ∧
    (∃ t', get_test (update strat now id items st).2 id = some t' ∧
      t' = (processItems strat now (items.filter (validItem t)) 0 t st.contextStore).1 ∧
      t'.update_count = t.update_count + (items.filter (validItem t)).length) ∧
    (update strat now id items st).2.contextStore =
      (processItems strat now (items.filter (validItem t)) 0 t st.contextStore).2.1 ∧
    (∀ a b c : UpdateItem, validItem t a = true → validItem t b = false →
      validItem t c = true →
      (update strat now id [a, b, c] st).1 =
        Except.ok ⟨2, [(1, FailReason.UnknownVariant)]⟩) := by
  obtain ⟨hreg, hact⟩ := (get_test_eq_some_iff st id t).mp ht
  obtain ⟨g1, g2, g3, g4⟩ := processItems_general strat now items t st.contextStore 0
  have hupd : update strat now id items st =
      (Except.ok ⟨(processItems strat now items 0 t st.contextStore).2.2.1,
          (processItems strat now items 0 t st.contextStore).2.2.2⟩,
        { st with
          contextStore := (processItems strat now items 0 t st.contextStore).2.1
          registry := aupdate id
            (fun _ => (processItems strat now items 0 t st.contextStore).1)
            st.registry }) := by
    simp [update, ht]
  refine ⟨?_, ?_, ?_, ?_⟩
  · rw [hupd]
    show Except.ok _ = _
    rw [g3, g4]
  · refine ⟨(processItems strat now (items.filter (validItem t)) 0 t st.contextStore).1,
      ?_, rfl, ?_⟩
    · rw [hupd, get_test_eq_some_iff]
      constructor
      · show alookup id (aupdate id _ st.registry) = _
        rw [alookup_aupdate_self, hreg]
        show some _ = _
        rw [g1]
      · rw [processItems_is_active]
        exact hact
    · exact processItems_update_count strat now (items.filter (validItem t)) t
        st.contextStore 0 (fun item hm => List.of_mem_filter hm)
  · rw [hupd]
    show (processItems strat now items 0 t st.contextStore).2.1 = _
    rw [g2]
  · intro a b c hva hvb hvc
    obtain ⟨-, -, g3', g4'⟩ := processItems_general strat now [a, b, c] t st.contextStore 0
    have hupd3 : (update strat now id [a, b, c] st).1 =
        Except.ok ⟨(processItems strat now [a, b, c] 0 t st.contextStore).2.2.1,
          (processItems strat now [a, b, c] 0 t st.contextStore).2.2.2⟩ := by
      simp [update, ht]
    rw [hupd3, g3', g4']
    simp [List.filter_cons, List.enumFrom, List.filterMap_cons, hva, hvb, hvc]

/-- C7 counterexample: the ModelList dashboard ordering is not
creation-time descending: on a fetched list holding an inactive test
created at time 10 and an active test created at time 5, the sorted
output puts the active (older) test first. -/
theorem fetchModels_order_counterexample :
    Frontend.sortedByCreatedDescB (Frontend.fetchModelsSort [Ex.cm1, Ex.cm2]) = false := by
  decide

/-- C7 amended: the ModelList ordering is active-tests-first, then by
creation time descending within each activity group (the relation
modelBefore); the output is a permutation of the fetched list, and being
a pure function of that list it is identical across calls on unchanged
state. -/
theorem fetchModels_sort_active_first_created_desc (l : List Frontend.ModelSummary) :
    List.Sorted Frontend.modelBefore (Frontend.fetchModelsSort l) ∧
    (Frontend.fetchModelsSort l).Perm l :=
  ⟨List.sorted_insertionSort Frontend.modelBefore l,
    List.perm_insertionSort Frontend.modelBefore l⟩

theorem alookup_append {α β : Type} [DecidableEq α] (k : α) (l1 l2 : List (α × β)) :
    alookup k (l1 ++ l2) = (alookup k l1).or (alookup k l2) := by
  induction l1 with
  | nil => simp [alookup]
  | cons p rest ih =>
      obtain ⟨a, v⟩ := p
      by_cases h : k = a <;> simp [alookup, h, ih]

theorem alookup_range_pairs_none {β : Type} (g : Nat → β) :
    ∀ (n i : Nat), ¬ i < n →
      alookup i ((List.range n).map (fun j => (j, g j))) = none := by
  intro n
  induction n with
  | zero => intro i _; rfl
  | succ n ih =>
      intro i hi
      rw [List.range_succ, List.map_append, alookup_append]
      rw [ih i (fun h => hi (Nat.lt_succ_of_lt h))]
      have hne : i ≠ n := fun he => hi (he ▸ Nat.lt_succ_self n)
      simp [alookup, hne]

theorem alookup_range_pairs {β : Type} (g : Nat → β) :
    ∀ (n i : Nat), i < n →
      alookup i ((List.range n).map (fun j => (j, g j))) = some (g i) := by
  intro n
  induction n with
  | zero => intro i hi; exact absurd hi (Nat.not_lt_zero i)
  | succ n ih =>
      intro i hi
      rw [List.range_succ, List.map_append, alookup_append]
      by_cases h : i < n
      · rw [ih i h]
        rfl
      · have hie : i = n := by omega
        rw [alookup_range_pairs_none g n i h]
        simp [alookup, hie]

theorem jsFallbackLabel_empty (labels : List String) (i : Nat)
    (h : labels.getD i "" = "") :
    Frontend.jsFallbackLabel labels i = Frontend.VariantLabel.num i := by
  unfold Frontend.jsFallbackLabel
  cases hg : labels.get? i with
  | none => rfl
  | some s =>
      have hg' : labels[i]? = some s := by rw [← List.get?_eq_getElem?]; exact hg
      rw [List.getD_eq_getElem?_getD, hg'] at h
      simp only [Option.getD_some] at h
      simp [h]

/-- C8: the create-test form always posts a dense variants mapping: the
variant count is clamped to at least 1, the dictionary keys are exactly
0 to N-1, the dictionary is never empty, and a slot whose label field
was left empty gets its own integer index as its label. -/
theorem create_form_variant_dict_dense (v : Option Int) (labels : List String) :
    1 ≤ (Frontend.clampVariantCount v).toNat ∧
    (Frontend.buildVariantDict (Frontend.clampVariantCount v).toNat labels).map Prod.fst =
      List.range (Frontend.clampVariantCount v).toNat ∧
    Frontend.buildVariantDict (Frontend.clampVariantCount v).toNat labels ≠ [] ∧
    (∀ i : Nat, i < (Frontend.clampVariantCount v).toNat → labels.getD i "" = "" →
      alookup i (Frontend.buildVariantDict (Frontend.clampVariantCount v).toNat labels) =
        some (Frontend.VariantLabel.num i)) := by
  have hpos : 1 ≤ (Frontend.clampVariantCount v).toNat := by
    cases v with
    | none => decide
    | some n =>
        simp only [Frontend.clampVariantCount]
        by_cases h : n > 0
        · rw [if_pos h]; omega
        · rw [if_neg h]; decide
  refine ⟨hpos, ?_, ?_, ?_⟩
  · show List.map Prod.fst (List.map (fun i => (i, Frontend.jsFallbackLabel labels i))
      (List.range (Frontend.clampVariantCount v).toNat)) = _
    rw [List.map_map]
    exact List.map_id _
  · simp only [Frontend.buildVariantDict, ne_eq, List.map_eq_nil_iff, List.range_eq_nil]
    omega
  · intro i hi hlab
    rw [show Frontend.buildVariantDict (Frontend.clampVariantCount v).toNat labels =
        (List.range (Frontend.clampVariantCount v).toNat).map
          (fun j => (j, Frontend.jsFallbackLabel labels j)) from rfl]
    rw [alookup_range_pairs _ _ i hi, jsFallbackLabel_empty labels i hlab]

/-- C9: every override request the ModelCard dropdown posts carries the
selected display label (a value of the variants mapping) in the body
variant field, never the integer variant id; choosing Remove override
instead posts to clear_global_variant with an empty body and leaves the
locally selected label unchanged. -/
theorem override_dropdown_posts_label (model_id selected key : String)
    (variants : List (Nat × String)) (rolled_out : Bool)
    (hkey : key ∈ Frontend.dropdownKeys variants rolled_out) :
    (key = "Remove override" ∧
      Frontend.handleVariantSelect model_id selected key =
        (Frontend.OverridePost.clear model_id, selected)) ∨
    (key ∈ variants.map Prod.snd ∧
      Frontend.handleVariantSelect model_id selected key =
        (Frontend.OverridePost.rollout model_id key, key)) := by
  by_cases hk : key = "Remove override"
  · exact Or.inl ⟨hk, by simp [Frontend.handleVariantSelect, hk]⟩
  · refine Or.inr ⟨?_, by simp [Frontend.handleVariantSelect, hk]⟩
    simp only [Frontend.dropdownKeys] at hkey
    rcases List.mem_append.mp hkey with h | h
    · exact h
    · exfalso
      cases rolled_out with
      | true => simp at h; exact hk h
      | false => simp at h

theorem stripPre_append (pre rest : Proxy.Path) :
    Proxy.stripPre pre (pre ++ rest) = some rest := by
  induction pre with
  | nil => rfl
  | cons a pre ih => simp [Proxy.stripPre, ih]

theorem stripPre_some {pre p rest : Proxy.Path}
    (h : Proxy.stripPre pre p = some rest) : p = pre ++ rest := by
  induction pre generalizing p with
  | nil =>
      simp only [Proxy.stripPre] at h
      cases h
      rfl
  | cons a pre ih =>
      cases p with
      | nil => simp [Proxy.stripPre] at h
      | cons b p' =>
          by_cases hab : a = b
          · subst hab
            simp only [Proxy.stripPre, if_pos rfl] at h
            rw [List.cons_append, ih h]
          · simp [Proxy.stripPre, hab] at h

/-- C10 counterexample: the two routing layers disagree on the concrete
client path /api/models: the pathRewrite development proxy forwards it
to the backend as /models while nginx forwards it as /api/models. -/
theorem proxy_rewrite_nginx_disagree :
    Proxy.devProxyRewriteForward "/api/models".toList ≠
      Proxy.nginxApiForward "/api/models".toList := by
  decide

/-- C10 amended: the two routing layers are not equivalent mappings: on
every client path the /api Express mount handles (the /api root itself
or any path continuing with a slash), the pathRewrite development proxy
forwards the path to the backend with the /api part stripped while
nginx forwards the same path unchanged, so the two layers disagree on
every such path. -/
theorem proxy_rewrite_strips_nginx_preserves (rest : Proxy.Path)
    (hrest : rest = [] ∨ rest.head? = some '/') :
    Proxy.devProxyRewriteForward (Proxy.apiRoot ++ rest) = some rest ∧
    Proxy.nginxApiForward (Proxy.apiRoot ++ rest) = some (Proxy.apiRoot ++ rest) ∧
    Proxy.devProxyRewriteForward (Proxy.apiRoot ++ rest) ≠
      Proxy.nginxApiForward (Proxy.apiRoot ++ rest) := by
  have hmount : Proxy.expressApiMount (Proxy.apiRoot ++ rest) = some rest := by
    rcases hrest with rfl | hhead
    · decide
    · cases rest with
      | nil => simp at hhead
      | cons c rest' =>
          have hc : c = '/' := by simpa using hhead
          subst hc
          simp [Proxy.expressApiMount, stripPre_append]
  have h1 : Proxy.devProxyRewriteForward (Proxy.apiRoot ++ rest) = some rest := by
    simp [Proxy.devProxyRewriteForward, hmount]
  have h2 : Proxy.nginxApiForward (Proxy.apiRoot ++ rest) = some (Proxy.apiRoot ++ rest) := by
    simp [Proxy.nginxApiForward, stripPre_append]
  refine ⟨h1, h2, ?_⟩
  rw [h1, h2]
  intro he
  have hlist : rest = Proxy.apiRoot ++ rest := by
    injection he
  have hlen := congrArg List.length hlist
  simp [Proxy.apiRoot] at hlen
  omega

theorem stOv_wf : StateWF Ex.strat0 Ex.stOv := by
  intro id t h
  by_cases hid : id = "t1"
  · subst hid
    have ht : Ex.testOv = t := by simpa [Ex.stOv, alookup] using h
    subst ht
    refine ⟨by decide, by decide, ?_, ?_⟩
    · intro v hv
      have hv1 : (1 : Nat) = v := by simpa [Ex.testOv] using hv
      subst hv1
      decide
    · intro s ctx
      show (alookup 0 Ex.testOv.variants).isSome = true
      decide
  · simp [Ex.stOv, alookup, hid] at h

/-- C1 witness: the override short-circuit theorem evaluated on a
concrete overridden test. -/
theorem recommend_override_short_circuit_witness :
    (recommend Ex.strat0 5 "t1" none (some "r1") Ex.stOv).1 =
      Except.ok ⟨1, labelOf Ex.testOv 1, true⟩ :=
  (recommend_override_short_circuit Ex.strat0 5 "t1" none (some "r1") Ex.stOv Ex.testOv 1
    (by decide) (by decide)).1

/-- C2 witness: two serialized concurrent recommends on a concrete test
are both counted and the per-variant sum matches the total. -/
theorem recommend_concurrent_no_lost_updates_witness :
    StateWF Ex.strat0 (runRecommends Ex.strat0 Ex.reqs2 Ex.stOv) ∧
    ∃ t', get_test (runRecommends Ex.strat0 Ex.reqs2 Ex.stOv) "t1" = some t' ∧
      t'.prediction_count = Ex.testOv.prediction_count + Ex.reqs2.length ∧
      statsPredSum t'.stats = t'.prediction_count :=
  recommend_concurrent_no_lost_updates Ex.strat0 Ex.reqs2 "t1" Ex.stOv Ex.testOv
    stOv_wf (by decide) (by decide)

/-- C3 witness: one-shot consumption evaluated on a concrete pending
entry and a twice-submitted feedback item. -/
theorem update_one_shot_context_consumption_witness :
    (update Ex.strat0 7 "t1" [Ex.itemC3] Ex.stC3).1 = Except.ok ⟨1, []⟩ ∧
    alookup "r1" (update Ex.strat0 7 "t1" [Ex.itemC3] Ex.stC3).2.contextStore = none ∧
    get_test (update Ex.strat0 7 "t1" [Ex.itemC3] Ex.stC3).2 "t1" =
      some (applyObservation Ex.strat0 7 Ex.itemC3 Ex.entC3.context Ex.testOv) ∧
    (update Ex.strat0 8 "t1" [Ex.itemC3]
        (update Ex.strat0 7 "t1" [Ex.itemC3] Ex.stC3).2).1 = Except.ok ⟨1, []⟩ ∧
    get_test (update Ex.strat0 8 "t1" [Ex.itemC3]
        (update Ex.strat0 7 "t1" [Ex.itemC3] Ex.stC3).2).2 "t1" =
      some (applyObservation Ex.strat0 8 Ex.itemC3 Ex.itemC3.context
        (applyObservation Ex.strat0 7 Ex.itemC3 Ex.entC3.context Ex.testOv)) :=
  update_one_shot_context_consumption Ex.strat0 7 8 "t1" "r1" Ex.stC3 Ex.testOv
    Ex.itemC3 Ex.entC3 (by decide) (by decide) (by decide) (by decide) (by decide)

/-- C4 witness: the batch theorem evaluated on a concrete 3-item batch
whose second item names unknown variant-id 5: processed_count 2 and one
failure at index 1. -/
theorem update_batch_partial_failure_witness :
    (update Ex.strat0 9 "t1" [Ex.itemA, Ex.itemB, Ex.itemC] Ex.stOv).1 =
      Except.ok ⟨2, [(1, FailReason.UnknownVariant)]⟩ :=
  (update_batch_partial_failure Ex.strat0 9 "t1" Ex.stOv Ex.testOv
      [Ex.itemA, Ex.itemB, Ex.itemC] (by decide)).2.2.2
    Ex.itemA Ex.itemB Ex.itemC (by decide) (by decide) (by decide)

/-- C10 witness: the amended routing theorem evaluated at the concrete
remainder /models. -/
theorem proxy_rewrite_strips_nginx_preserves_witness :
    Proxy.devProxyRewriteForward (Proxy.apiRoot ++ "/models".toList) =
      some "/models".toList ∧
    Proxy.nginxApiForward (Proxy.apiRoot ++ "/models".toList) =
      some (Proxy.apiRoot ++ "/models".toList) ∧
    Proxy.devProxyRewriteForward (Proxy.apiRoot ++ "/models".toList) ≠
      Proxy.nginxApiForward (Proxy.apiRoot ++ "/models".toList) :=
  proxy_rewrite_strips_nginx_preserves "/models".toList (by decide)

/-- C6 witness: deleting an absent test id on a concrete state returns
success and leaves the state untouched. -/
theorem delete_test_idempotent_witness :
    (delete_test "tx" Ex.stOv).1 = Except.ok () ∧ (delete_test "tx" Ex.stOv).2 = Ex.stOv :=
  ⟨(delete_test_idempotent "tx" Ex.stOv).1,
    (delete_test_idempotent "tx" Ex.stOv).2.2 (by decide) (by decide)⟩

/-- C8 witness: a non-positive variant count clamps to one slot and an
empty label falls back to the integer index. -/
theorem create_form_variant_dict_dense_witness :
    1 ≤ (Frontend.clampVariantCount (some 0)).toNat ∧
    alookup 0 (Frontend.buildVariantDict (Frontend.clampVariantCount (some 0)).toNat [""]) =
      some (Frontend.VariantLabel.num 0) :=
  ⟨(create_form_variant_dict_dense (some 0) [""]).1,
    (create_form_variant_dict_dense (some 0) [""]).2.2.2 0 (by decide) (by decide)⟩

/-- C9 witness: selecting the Blue label posts a rollout request carrying
that label. -/
theorem override_dropdown_posts_label_witness :
    ("Blue" = "Remove override" ∧
      Frontend.handleVariantSelect "t1" "Set global variant" "Blue" =
        (Frontend.OverridePost.clear "t1", "Set global variant")) ∨
    ("Blue" ∈ Ex.variants2.map Prod.snd ∧
      Frontend.handleVariantSelect "t1" "Set global variant" "Blue" =
        (Frontend.OverridePost.rollout "t1" "Blue", "Blue")) :=
  override_dropdown_posts_label "t1" "Set global variant" "Blue" Ex.variants2 false (by decide)

end Scout
